import Mathlib

/-
Verification development for the schema-to-typings generator
(generate-mail-extension-typings).

The embedding below follows the main source file (the current generator,
`src/unnamed/part_000`) line by line.  JavaScript values are modelled as
follows:

* optional / possibly-`undefined` fields become `Option _`; JS truthiness of
  a string field is `some s` with `s ≠ ""`, of a boolean field `some true`,
  of an object or array field `isSome`;
* the loosely typed schema nodes (`SchemaPartType`, `SchemaPartFunctionParameter`
  and the ad-hoc record accepted by `getType`) all share one node type `Node`
  carrying every field any of them uses, mirroring how the source freely
  spreads one shape into another;
* the `async` field (`boolean | string`) becomes the sum `AVal`;
* functions that can `throw` return `Except String _`;
* `logger.warn` / `logger.error` diagnostics are collected in a `List String`
  that every compiler function returns alongside its text;
* the single in-place mutation performed by the source — the `.shift()` on the
  named callback parameter's nested parameter list inside `findReturnType` —
  is made explicit by also returning the post-call state of every node
  (state-passing style);
* general recursion is bounded by an explicit `fuel : Nat`; the source
  recursion is structural on the schema tree, so any large enough fuel yields
  the source behaviour, and fuel is threaded so that every nested call gets a
  strictly smaller amount.
-/

/-- The `async` field of a schema function: a JS boolean or a JS string. -/
inductive AVal where
  | abool (b : Bool)
  | astr (s : String)
deriving Repr, BEq, DecidableEq

/-- One loosely typed schema node.  Single constructor; the sixteen fields are,
in order: `id`, `name`, `type`, `$ref`, `description`, `value`,
`optional`, `unsupported`, `async`, `enum`, `items`, `returns`,
`choices`, `parameters`, `functions`, `properties`. -/
inductive Node where
  | mk (id name type ref description value : Option String)
       (optional unsupported : Option Bool)
       (async : Option AVal)
       (enumVals : Option (List String))
       (items returns : Option Node)
       (choices parameters functions : Option (List Node))
       (properties : Option (List (String × Node)))
deriving Repr

def Node.id : Node → Option String
  | .mk i _ _ _ _ _ _ _ _ _ _ _ _ _ _ _ => i

def Node.name : Node → Option String
  | .mk _ n _ _ _ _ _ _ _ _ _ _ _ _ _ _ => n

def Node.type : Node → Option String
  | .mk _ _ t _ _ _ _ _ _ _ _ _ _ _ _ _ => t

def Node.ref : Node → Option String
  | .mk _ _ _ r _ _ _ _ _ _ _ _ _ _ _ _ => r

def Node.description : Node → Option String
  | .mk _ _ _ _ d _ _ _ _ _ _ _ _ _ _ _ => d

def Node.value : Node → Option String
  | .mk _ _ _ _ _ v _ _ _ _ _ _ _ _ _ _ => v

def Node.optional : Node → Option Bool
  | .mk _ _ _ _ _ _ o _ _ _ _ _ _ _ _ _ => o

def Node.unsupported : Node → Option Bool
  | .mk _ _ _ _ _ _ _ u _ _ _ _ _ _ _ _ => u

def Node.async : Node → Option AVal
  | .mk _ _ _ _ _ _ _ _ a _ _ _ _ _ _ _ => a

def Node.enumVals : Node → Option (List String)
  | .mk _ _ _ _ _ _ _ _ _ e _ _ _ _ _ _ => e

def Node.items : Node → Option Node
  | .mk _ _ _ _ _ _ _ _ _ _ i _ _ _ _ _ => i

def Node.returns : Node → Option Node
  | .mk _ _ _ _ _ _ _ _ _ _ _ r _ _ _ _ => r

def Node.choices : Node → Option (List Node)
  | .mk _ _ _ _ _ _ _ _ _ _ _ _ c _ _ _ => c

def Node.parameters : Node → Option (List Node)
  | .mk _ _ _ _ _ _ _ _ _ _ _ _ _ p _ _ => p

def Node.functions : Node → Option (List Node)
  | .mk _ _ _ _ _ _ _ _ _ _ _ _ _ _ f _ => f

def Node.properties : Node → Option (List (String × Node))
  | .mk _ _ _ _ _ _ _ _ _ _ _ _ _ _ _ p => p

def Node.setId : Node → Option String → Node
  | .mk _ n t r d v o u a e it rt c p f pr, i => .mk i n t r d v o u a e it rt c p f pr

def Node.setName : Node → Option String → Node
  | .mk i _ t r d v o u a e it rt c p f pr, n => .mk i n t r d v o u a e it rt c p f pr

def Node.setType : Node → Option String → Node
  | .mk i n _ r d v o u a e it rt c p f pr, t => .mk i n t r d v o u a e it rt c p f pr

def Node.setRef : Node → Option String → Node
  | .mk i n t _ d v o u a e it rt c p f pr, r => .mk i n t r d v o u a e it rt c p f pr

def Node.setDescription : Node → Option String → Node
  | .mk i n t r _ v o u a e it rt c p f pr, d => .mk i n t r d v o u a e it rt c p f pr

def Node.setOptional : Node → Option Bool → Node
  | .mk i n t r d v _ u a e it rt c p f pr, o => .mk i n t r d v o u a e it rt c p f pr

def Node.setAsync : Node → Option AVal → Node
  | .mk i n t r d v o u _ e it rt c p f pr, a => .mk i n t r d v o u a e it rt c p f pr

def Node.setEnumVals : Node → Option (List String) → Node
  | .mk i n t r d v o u a _ it rt c p f pr, e => .mk i n t r d v o u a e it rt c p f pr

def Node.setItems : Node → Option Node → Node
  | .mk i n t r d v o u a e _ rt c p f pr, it => .mk i n t r d v o u a e it rt c p f pr

def Node.setReturns : Node → Option Node → Node
  | .mk i n t r d v o u a e it _ c p f pr, rt => .mk i n t r d v o u a e it rt c p f pr

def Node.setChoices : Node → Option (List Node) → Node
  | .mk i n t r d v o u a e it rt _ p f pr, c => .mk i n t r d v o u a e it rt c p f pr

def Node.setParameters : Node → Option (List Node) → Node
  | .mk i n t r d v o u a e it rt c _ f pr, p => .mk i n t r d v o u a e it rt c p f pr

def Node.setProperties : Node → Option (List (String × Node)) → Node
  | .mk i n t r d v o u a e it rt c p f _, pr => .mk i n t r d v o u a e it rt c p f pr

/-- The node with every field absent (`undefined`). -/
def emptyNode : Node :=
  .mk none none none none none none none none none none none none none none none none

/-- One `SchemaPart` record, i.e. one namespace contribution of one schema
file.  The source field `namespace` is a Lean keyword and is called `nspace`
here.  The `functions`/`events`/`types` sequences are total (the source
defaults a missing sequence to `[]` while destructuring), `properties` may be
absent. -/
structure SchemaPart where
  nspace : String
  description : Option String
  functions : List Node
  events : List Node
  types : List Node
  properties : Option (List (String × Node))
deriving Repr

/-- The namespace table (`Map<string, SchemaPart>`), as an insertion-ordered
association list, matching JS `Map` iteration order. -/
abbrev Table : Type := List (String × SchemaPart)

/-- JS string-field truthiness: present and non-empty. -/
def strTruthy : Option String → Bool
  | some s => !(s == "")
  | none => false

/-- JS `x || ""` for a possibly missing string. -/
def jsOr : Option String → String
  | some s => s
  | none => ""

/-- JS template interpolation of a possibly missing string
(`undefined` prints as "undefined"). -/
def jsShow : Option String → String
  | some s => s
  | none => "undefined"

/-- Truthiness of a `boolean | undefined` field. -/
def optTruthy (o : Option Bool) : Bool := o == some true

/-- Truthiness of the `currentNamespace` argument of `getType`. -/
def cnsTruthy : Option String → Bool
  | some s => !(s == "")
  | none => false

/-- JS `s.indexOf(".") >= 0`: the string contains a dot.  (Implemented over
the character list so that it evaluates by kernel reduction.) -/
def jsIncludesDot (s : String) : Bool := s.data.any fun c => c == '.'

/-- JS whitespace for the strings this generator produces. -/
def jsIsWS (c : Char) : Bool := c == ' ' || c == '\n' || c == '\t' || c == '\r'

def trimLeftChars : List Char → List Char
  | [] => []
  | c :: l => if jsIsWS c then trimLeftChars l else c :: l

/-- JS `String.prototype.trim`: strip whitespace from both ends.  (Implemented
over the character list so that it evaluates by kernel reduction.) -/
def jsTrim (s : String) : String :=
  String.mk ((trimLeftChars (trimLeftChars s.data).reverse).reverse)

/-- JS `Array.prototype.findIndex`, with `-1` modelled as `none`. -/
def jsFindIndex (p : α → Bool) : List α → Option Nat
  | [] => none
  | a :: l => if p a then some 0 else (jsFindIndex p l).map (· + 1)

/-- JS `Array.prototype.find`. -/
def jsFind (p : α → Bool) : List α → Option α
  | [] => none
  | a :: l => if p a then some a else jsFind p l

/-- `arr.filter((_, index) => index !== i)`: drop the element at index `i`. -/
def jsRemoveIdx : List α → Nat → List α
  | [], _ => []
  | _ :: l, 0 => l
  | a :: l, i + 1 => a :: jsRemoveIdx l i

/-- `arr.filter((x, index) => p index x)`. -/
def filterWithIdxAux (p : Nat → α → Bool) : Nat → List α → List α
  | _, [] => []
  | i, a :: l =>
    if p i a then a :: filterWithIdxAux p (i + 1) l else filterWithIdxAux p (i + 1) l

def filterWithIdx (p : Nat → α → Bool) (l : List α) : List α := filterWithIdxAux p 0 l

/-- `findNamespaceFortype`: scan the namespace table in iteration order and
collect every namespace whose `types` contain a type whose `id` is the given
reference (the source also `console.log`s each hit, which produces no output
text). -/
def findNamespaceFortype (r : String) (namespaces : Option Table) : List String :=
  match namespaces with
  | none => []
  | some t => (t.filter fun e => e.2.types.any fun ty => ty.id == some r).map (·.1)

/-- `generateDescription`: render a doc comment for a chunk's `description`.
`Array(n).join("  ")` is the two-space separator repeated `n - 1` times.
The source rewrites the HTML tags `code`/`b`/`em`/`strong` to markdown; each
regex `/<\/?tag>/g` is the global replacement of the two literal tags. -/
def generateDescription (description : Option String) (indention : Nat) : String :=
  match description with
  | some d =>
    if d == "" then ""
    else
      String.join (List.replicate (indention - 1) "  ") ++ "  /**\n " ++
      String.join (List.replicate indention "  ") ++ "* " ++
      (((((((d.replace "<code>" "\x60").replace "</code>" "\x60").replace
        "<b>" "**").replace "</b>" "**").replace "<em>" "*").replace
        "</em>" "*").replace "<strong>" "**").replace "</strong>" "**" ++
      "\n  */\n"
  | none => ""

/-- `mergeNamespaceFunctions`: the source concatenates and filters by
`indexOf === index`; since JS `indexOf` compares by object identity and the
records of different files are always distinct objects, the filter never
removes anything, so the merge is a plain concatenation. -/
def mergeNamespaceFunctions (functions : List Node) (existingSchemaPart : SchemaPart) :
    List Node :=
  functions ++ existingSchemaPart.functions

/-- `mergeNamespaceEvents`: keep all new events, then those existing events
whose `(async, name)` pair does not occur among the new ones. -/
def mergeNamespaceEvents (events : List Node) (existingSchemaPart : SchemaPart) :
    List Node :=
  events ++ existingSchemaPart.events.filter fun e =>
    !(events.any fun i => i.async == e.async && i.name == e.name)

/-- JS truthiness of a type's `id`. -/
def typeIdTruthy (t : Node) : Bool :=
  match t.id with
  | some s => !(s == "")
  | none => false

/-- `mergeNamespaceTypes`: concatenate new types before existing ones, then
filter with the source's callback: an id-less part hits `return 0` — a falsy
value, so `filter` DROPS it (despite the adjacent comment claiming id-less
parts are always kept) — and an id-carrying part is kept iff it is the first
occurrence of its `id` in the concatenated list. -/
def mergeNamespaceTypes (types : List Node) (existingSchemaPart : SchemaPart) :
    List Node :=
  let result := types ++ existingSchemaPart.types
  filterWithIdx
    (fun index schemaPart =>
      if !(typeIdTruthy schemaPart) then false
      else jsFindIndex (fun item => item.id == schemaPart.id) result == some index)
    result

/-- `mergeNameSpaceProperties`: returns its first argument — the NEW part's
properties — unchanged; the existing part's properties are discarded. -/
def mergeNameSpaceProperties (properties : Option (List (String × Node)))
    (_existingSchemaPart : SchemaPart) : Option (List (String × Node)) :=
  properties

/-- `Map.get`. -/
def tableGet (t : Table) (k : String) : Option SchemaPart :=
  (jsFind (fun e => e.1 == k) t).map (·.2)

/-- `Map.set`: replace in place when the key exists (JS `Map` keeps the
original insertion position), else append. -/
def tableSet (t : Table) (k : String) (v : SchemaPart) : Table :=
  if t.any (fun e => e.1 == k) then
    t.map fun e => if e.1 == k then (k, v) else e
  else t ++ [(k, v)]

/-- One step of `mergeSchema`'s `forEach`: initialise a fresh namespace entry
verbatim, or merge into the existing entry.  Note the merged record carries
only the five fields the source lists — its `description` is dropped. -/
def mergeSchemaStep (namespaces : Table) (schemaPart : SchemaPart) : Table :=
  match tableGet namespaces schemaPart.nspace with
  | none => tableSet namespaces schemaPart.nspace schemaPart
  | some existingSchemaPart =>
    tableSet namespaces schemaPart.nspace
      { nspace := schemaPart.nspace
        description := none
        functions := mergeNamespaceFunctions schemaPart.functions existingSchemaPart
        events := mergeNamespaceEvents schemaPart.events existingSchemaPart
        types := mergeNamespaceTypes schemaPart.types existingSchemaPart
        properties := mergeNameSpaceProperties schemaPart.properties existingSchemaPart }

/-- `mergeSchema`: fold all parts into the namespace table. -/
def mergeSchema (schemaParts : List SchemaPart) : Table :=
  schemaParts.foldl mergeSchemaStep ([] : Table)

/-- Truthiness of a parameter's `optional` flag, as used by every
`findIndex`/`every` over parameters in `createFunctionDefinition`. -/
def nodeOptional (p : Node) : Bool := p.optional == some true

/-- `requireAllParams`: force every parameter required, except that one named
`callback` keeps its own optionality (spreading a record with its own
`optional` value reproduces the record, so the callback case is the identity). -/
def requireAllParams (params : List Node) : List Node :=
  params.map fun parameter =>
    if parameter.name == some "callback" then parameter
    else parameter.setOptional (some false)

/-- `parameters.findIndex((param) => param.optional)`. -/
def firstOptionalParameterIndex (parameters : List Node) : Option Nat :=
  jsFindIndex nodeOptional parameters

/-- `parameters.slice(firstOptionalParameterIndex).every(({optional}) => optional)`.
When `findIndex` returns `-1`, `slice(-1)` is the final one-element slice
(`drop (length - 1)`). -/
def allTrailingAreOptional (parameters : List Node) : Bool :=
  (match firstOptionalParameterIndex parameters with
    | some i => parameters.drop i
    | none => parameters.drop (parameters.length - 1)).all nodeOptional

/-- The `while (params.findIndex(({optional}) => optional) >= 0)` loop of
`createFunctionDefinition`: returns the successive parameter lists emitted
inside the loop and the final list left when no optional parameter remains.
Each iteration removes one element, so the loop runs at most `length` times;
the fuel below is exactly that bound. -/
def overloadLoopF : Nat → List Node → List (List Node) × List Node
  | 0, params => ([], params)
  | n + 1, params =>
    match jsFindIndex nodeOptional params with
    | none => ([], params)
    | some firstElementToBeRemoved =>
      let rest := overloadLoopF n (jsRemoveIdx params firstElementToBeRemoved)
      (params :: rest.1, rest.2)

def overloadLoop (params : List Node) : List (List Node) × List Node :=
  overloadLoopF params.length params

/-- The successive parameter lists that `createFunctionDefinition` passes to
`generateFunctionParams`, in emission order: the single raw list when all
trailing parameters are optional, otherwise every loop iteration's list and
the final list, each put through `requireAllParams`. -/
def emittedParamLists (parameters : List Node) : List (List Node) :=
  if allTrailingAreOptional parameters then [parameters]
  else
    (overloadLoop parameters).1.map requireAllParams ++
      [requireAllParams (overloadLoop parameters).2]

/-- The fresh flattened copy `generateFunctionParams` makes of each nested
callback parameter: only `name`/`optional`/`type`/`description` survive
(defaulted), and the nested `parameters` are emptied.  Being fresh objects,
mutations of these copies never reach the original schema nodes. -/
def flattenNestedParam (item : Node) : Node :=
  ((((emptyNode.setName (some (jsOr item.name))).setOptional
    (some (item.optional.getD false))).setType
    (some (jsOr item.type))).setDescription
    (some (item.description.getD ""))).setParameters (some [])

/-- The rendering options of `createFunctionDefinition`, with the source's
defaults. -/
structure CFDOpts where
  omitFunctionKeyword : Bool := false
  omitFunctionName : Bool := false
  omitDescription : Bool := false
  inlineFunction : Bool := false
  overrideDelimiter : String := ";"
  wrapInBrackets : Bool := false
deriving Repr

def defaultCFDOpts : CFDOpts := {}

/-- The options `getType` uses for an inline anonymous function type. -/
def inlineAnonOpts : CFDOpts :=
  { omitFunctionKeyword := true
    omitFunctionName := true
    omitDescription := true
    inlineFunction := true
    overrideDelimiter := " , "
    wrapInBrackets := false }

/-- The parameter list after the `.shift()` mutation in `findReturnType`: if a
parameter named after the `async` string with function type exists and carries
a non-empty nested parameter list, that first matching parameter loses the
head of its nested list; otherwise (`asyncReturnType?.parameters || []` is a
fresh or empty array) nothing observable changes. -/
def mutatedAsyncParams (a : String) (fparams : List Node) : List Node :=
  match jsFindIndex (fun param => param.name == some a && param.type == some "function")
      fparams with
  | none => fparams
  | some i =>
    match fparams[i]? with
    | none => fparams
    | some e =>
      match e.parameters with
      | some (_ :: tl) => fparams.set i (e.setParameters (some tl))
      | _ => fparams

/-- One signature line of `createFunctionDefinition`, given the already
rendered parameter text. -/
def sigLine (opts : CFDOpts) (funcName paramText returnType : String) : String :=
  "  " ++ (if opts.wrapInBrackets then "(" else "") ++
  (if opts.omitFunctionKeyword then "" else "function ") ++
  (if opts.omitFunctionName then "" else funcName) ++
  "(" ++ paramText ++ ")" ++
  (if opts.inlineFunction then " => " else ": ") ++
  returnType ++
  (if opts.wrapInBrackets then ")" else "") ++
  opts.overrideDelimiter ++ "\n"

/-- JS template interpolation of an `async` value. -/
def showAVal : AVal → String
  | .abool b => if b then "true" else "false"
  | .astr s => s

/-- Thread the post-call state of a node back to an entry whose `name` field
had been overridden on a spread copy (the override lives only on the copy). -/
def restoreName (mutated : Option Node) (original : Node) : Node :=
  match mutated with
  | some m => m.setName original.name
  | none => original

/-- The body of `getType` for a defined node, abstracted over the recursive
entry points (which receive one unit less fuel): the `$ref` / primitive /
enum / array / boolean / choices / function / any / object dispatch chain, in
source order, ending in the explicit undeterminable marker.  `DEBUG` is off in
the source, so every `debug(...)` interpolation is `""`; in the
`$ref`-with-dot branch this still leaves the source template's leading space.
The `enum` fallback literal `"enum"` for a non-array truthy `enum` value is
unreachable in this model, where `enum` is a list or absent. -/
def getTypeBody
    (recGetType : Option Node → Option Table → Option String →
      Except String (String × Option Node × List String))
    (recGetTypeList : List Node → Except String (List String × List Node × List String))
    (recCFD : Option String → AVal → Option String → List Node → Option Node → String →
      CFDOpts → Option Table → Except String (String × List Node × List String))
    (recPropsList : List (String × Node) →
      Except String (String × List (String × Node) × List String))
    (property : Node) (namespaces : Option Table) (currentNamespace : Option String) :
    Except String (String × Option Node × List String) :=
  if strTruthy property.ref then
    let r := jsOr property.ref
    if jsIncludesDot r then .ok (" " ++ r, some property, [])
    else
      let nsFound := findNamespaceFortype r namespaces
      if nsFound.isEmpty then
        .ok (r, some property, ["ERROR: namespace \x27" ++ r ++ "\x27 not found."])
      else
        let targetNamespace := nsFound.getLast?
        if cnsTruthy currentNamespace && (targetNamespace == currentNamespace) then
          .ok (r, some property, [])
        else
          .ok (jsShow targetNamespace ++ "." ++ r, some property, [])
  else if property.type == some "integer" then .ok ("number", some property, [])
  else if property.type == some "number" then .ok ("number", some property, [])
  else if property.type == some "string" then
    match property.enumVals with
    | some l =>
      .ok (jsTrim (String.intercalate "\n | " (l.map fun item => "\x27" ++ item ++ "\x27")),
        some property, [])
    | none => .ok ("string", some property, [])
  else if property.type == some "array" then
    match property.items with
    | none => .error "Cannot create array typing"
    | some itemsNode =>
      if strTruthy itemsNode.type then
        match recGetType (some itemsNode) none none with
        | .error e => .error e
        | .ok (t, itemsNode', w) => .ok (t ++ "[]", some (property.setItems itemsNode'), w)
      else
        let refName := jsOr itemsNode.ref
        if jsIncludesDot refName then .ok (refName ++ "[]", some property, [])
        else .ok (refName ++ "[]", some property, [])
  else if property.type == some "boolean" then .ok ("boolean", some property, [])
  else if (property.choices).isSome then
    match recGetTypeList (property.choices.getD []) with
    | .error e => .error e
    | .ok (ts, choices', w) =>
      .ok (String.intercalate " | " ts, some (property.setChoices (some choices')), w)
  else if property.type == some "function" then
    match recCFD (some "") (property.async.getD (.abool false)) (some "")
        (property.parameters.getD []) property.returns "" inlineAnonOpts namespaces with
    | .error e => .error e
    | .ok (t, mutParams, w) =>
      let property' :=
        match property.parameters with
        | some _ => property.setParameters (some mutParams)
        | none => property
      .ok ("/* or any?  */ " ++ t ++ " /* x7 */ \n", some property', w)
  else if property.type == some "any" then .ok ("any", some property, [])
  else if property.type == some "object" then
    match property.properties with
    | some entries =>
      match recPropsList entries with
      | .error e => .error e
      | .ok (t, entries', w) =>
        .ok ("\x7b\n  " ++ t ++ "\n  \x7d", some (property.setProperties (some entries')), w)
    | none => .ok ("/* \"unknown\" undefined */ object", some property, [])
  else .ok ("void /* could not determine correct type */", some property, [])

mutual

/-- `getType`: compile one schema node to a type-expression string.  Returns
the text, the node's state after the call (the `.shift()` mutation reached
through the function branch is threaded back), and the warnings logged.  The
dispatch chain itself is `getTypeBody`, instantiated with the recursive entry
points at the next fuel level. -/
def getType : Nat → Option Node → Option Table → Option String →
    Except String (String × Option Node × List String)
  | _, none, _, _ => .ok ("void", none, [])
  | 0, some _, _, _ => .error "fuel exhausted"
  | fuel + 1, some property, namespaces, currentNamespace =>
    getTypeBody (getType fuel) (getTypeList fuel) (createFunctionDefinition fuel)
      (generatePropertyTypingsList fuel) property namespaces currentNamespace
termination_by structural fuel _ _ _ => fuel

/-- `choices.map((choice) => getType(choice))`: one-argument `getType` on each
choice, threading mutation and warnings. -/
def getTypeList : Nat → List Node → Except String (List String × List Node × List String)
  | 0, _ => .error "fuel exhausted"
  | _ + 1, [] => .ok ([], [], [])
  | fuel + 1, choice :: rest =>
    match getType fuel (some choice) none none with
    | .error e => .error e
    | .ok (t, choice', w) =>
      match getTypeList fuel rest with
      | .error e => .error e
      | .ok (ts, rest', ws) =>
        .ok (t :: ts, (match choice' with | some c => c | none => choice) :: rest', w ++ ws)
termination_by structural fuel _ => fuel

/-- The inner `findReturnType` closure of `createFunctionDefinition`, lifted
to the top level (its free variables — the enclosing function's parameter
list, `currentNamespace` and `namespaces` — become arguments).  Returns the
return-type text, the externally visible parameter list, the enclosing
function's parameter list after the `.shift()` mutation, and warnings. -/
def findReturnType : Nat → AVal → List Node → Option Node → String → Option Table →
    Except String (String × List Node × List Node × List String)
  | 0, _, _, _, _, _ => .error "fuel exhausted"
  | fuel + 1, fasync, fparams, freturns, currentNamespace, namespaces =>
    let parameters := fparams.filter fun param =>
      !(param.name == some "callback") && !(param.name == some "responseCallback")
    match fasync with
    | .astr a =>
      let asyncReturnType :=
        jsFind (fun param => param.name == some a && param.type == some "function") fparams
      let shifted : Option Node :=
        match asyncReturnType with
        | some e => (e.parameters.getD []).head?
        | none => none
      let mutParams := mutatedAsyncParams a fparams
      match getType fuel shifted namespaces (some currentNamespace) with
      | .error e => .error e
      | .ok (unwrappedAsyncReturnType, _, w) =>
        let optionalFallBackType :=
          match asyncReturnType with
          | some e =>
            if e.name == some "callback" && e.optional == some true then " | null" else ""
          | none => ""
        let funcParams := mutParams.filter fun param => !(param.name == some a)
        .ok ("Promise<" ++
            (if unwrappedAsyncReturnType == "" then "any" else unwrappedAsyncReturnType) ++
            optionalFallBackType ++ ">",
          funcParams, mutParams, w)
    | .abool b =>
      let functionResultType :=
        match freturns with
        | some ret =>
          match ret.type with
          | some t => if t == "array" then "[]" else t
          | none => "undefined"
        | none => "void"
      .ok (if b then "Promise<any>" else functionResultType, parameters, fparams, [])
termination_by structural fuel _ _ _ _ _ => fuel

/-- `createFunctionDefinition`, over the fields of the `SchemaPartFunction` it
receives (`name`, `async`, `description`, `parameters`, `returns`).  Returns
the rendered text, the function's parameter list after the `.shift()`
mutation, and the warnings logged (the `"ERR"` diagnostic branch is kept from
the source even though `findReturnType` can no longer produce `"ERR"`). -/
def createFunctionDefinition : Nat → Option String → AVal → Option String → List Node →
    Option Node → String → CFDOpts → Option Table →
    Except String (String × List Node × List String)
  | 0, _, _, _, _, _, _, _, _ => .error "fuel exhausted"
  | fuel + 1, fname, fasync, fdescription, fparams, freturns, currentNamespace, opts,
      namespaces =>
    match findReturnType fuel fasync fparams freturns currentNamespace namespaces with
    | .error e => .error e
    | .ok (returnType, parameters, mutParams, w0) =>
      let errWarns :=
        if returnType == "ERR" then
          ["Unknown async type, namespace " ++ currentNamespace ++ ", function \x27" ++
            jsShow fname ++ "\x27: \x27" ++ showAVal fasync ++ "\x27"]
        else []
      let descText := if opts.omitDescription then "" else generateDescription fdescription 0
      let isNameReserved :=
        match fname with
        | some s => s == "import" || s == "delete" || s == "class"
        | none => false
      let funcName := if isNameReserved then "__" ++ (fname.getD "") else jsShow fname
      match renderParamLists fuel (emittedParamLists parameters) with
      | .error e => .error e
      | .ok (pieces, w1) =>
        let body :=
          String.join (pieces.map fun ptext => sigLine opts funcName ptext returnType)
        let exportSuffix :=
          if isNameReserved then
            "\n export \x7b " ++ funcName ++ " as " ++ jsShow fname ++ " \x7d\n\n"
          else ""
        .ok (descText ++ body ++ exportSuffix, mutParams, w0 ++ errWarns ++ w1)
termination_by structural fuel _ _ _ _ _ _ _ _ => fuel

/-- Render each emitted parameter list of `createFunctionDefinition` through
`generateFunctionParams`, in emission order. -/
def renderParamLists : Nat → List (List Node) → Except String (List String × List String)
  | 0, _ => .error "fuel exhausted"
  | _ + 1, [] => .ok ([], [])
  | fuel + 1, params :: rest =>
    match generateFunctionParams fuel params with
    | .error e => .error e
    | .ok (t, w) =>
      match renderParamLists fuel rest with
      | .error e => .error e
      | .ok (ts, ws) => .ok (t :: ts, w ++ ws)
termination_by structural fuel _ => fuel

/-- `generateFunctionParams`: render each parameter and join with `", "`. -/
def generateFunctionParams : Nat → List Node → Except String (String × List String)
  | 0, _ => .error "fuel exhausted"
  | fuel + 1, parameters =>
    match generateFunctionParamsList fuel parameters with
    | .error e => .error e
    | .ok (ts, w) => .ok (String.intercalate ", " ts, w)
termination_by structural fuel _ => fuel

/-- The `parameters.forEach` body of `generateFunctionParams`: each parameter
is rendered as description, name, optionality marker and the one-argument
`getType` of the flattened copy `functionParam`.  The flattened copies carry
empty nested parameter lists, so the `.shift()` mutation cannot reach the
original nodes through this call and its state result is discarded. -/
def generateFunctionParamsList : Nat → List Node → Except String (List String × List String)
  | 0, _ => .error "fuel exhausted"
  | _ + 1, [] => .ok ([], [])
  | fuel + 1, param :: rest =>
    let functionParam :=
      param.setParameters (param.parameters.map fun l => l.map flattenNestedParam)
    match getType fuel (some functionParam) none none with
    | .error e => .error e
    | .ok (t, _, w) =>
      let text := jsTrim (generateDescription param.description 0 ++ "\n" ++ jsShow param.name ++
        (if param.optional == some true then "?" else "") ++ ": " ++ t)
      match generateFunctionParamsList fuel rest with
      | .error e => .error e
      | .ok (ts, ws) => .ok (text :: ts, w ++ ws)
termination_by structural fuel _ => fuel

/-- `generatePropertyTypings` on one property entry.  The source builds
`{name, isInterfaceProperty: true, ...prop}`, so a `name` field carried by the
node itself overrides the entry key; the override lives on the spread copy and
is undone when the post-call state is threaded back to the entry. -/
def generatePropertyTypings : Nat → String → Node → Bool →
    Except String (String × Node × List String)
  | 0, _, _, _ => .error "fuel exhausted"
  | fuel + 1, entryName, prop, isInterfaceProperty =>
    if prop.unsupported == some true then .ok ("", prop, [])
    else
      let property :=
        prop.setName (some (match prop.name with | some s => s | none => entryName))
      if prop.choices.isSome && !isInterfaceProperty then
        match getType fuel (some property) none none with
        | .error e => .error e
        | .ok (t, property', w) =>
          .ok (generateDescription prop.description 0 ++ "  type " ++ jsShow property.name ++
              " = " ++ t ++ ";\n",
            restoreName property' prop, w)
      else
        match getType fuel (some property) none none with
        | .error e => .error e
        | .ok (t, property', w) =>
          .ok (generateDescription prop.description 1 ++ "    " ++ jsShow property.name ++
              (if prop.optional == some true then "?" else "") ++ ": " ++ t ++ "\n",
            restoreName property' prop, w)
termination_by structural fuel _ _ _ => fuel

/-- The `entries.forEach` of `getType`'s object branch: concatenate the
property typings of all entries (the source additionally `console.log`s the
names of any `functions`, producing no output text). -/
def generatePropertyTypingsList : Nat → List (String × Node) →
    Except String (String × List (String × Node) × List String)
  | 0, _ => .error "fuel exhausted"
  | _ + 1, [] => .ok ("", [], [])
  | fuel + 1, (entryName, prop) :: rest =>
    match generatePropertyTypings fuel entryName prop true with
    | .error e => .error e
    | .ok (t, prop', w) =>
      match generatePropertyTypingsList fuel rest with
      | .error e => .error e
      | .ok (ts, rest', ws) => .ok (t ++ ts, (entryName, prop') :: rest', w ++ ws)
termination_by structural fuel _ => fuel

end

/-- A required or optional string-typed parameter, used by the concrete
scenarios below. -/
def strP (n : String) (opt : Bool) : Node :=
  ((emptyNode.setName (some n)).setType (some "string")).setOptional (some opt)

/-- Concrete `[optional, required, optional]` parameter list `[a?, b, c?]`. -/
def c2params : List Node := [strP "a" true, strP "b" false, strP "c" true]

/-- A required parameter `x: string`. -/
def xParam : Node := strP "x" false

/-- A nested callback result parameter of type `string`. -/
def innerStringParam : Node := emptyNode.setType (some "string")

/-- A parameter named `callback` of function type whose nested parameter list
is `[innerStringParam]`. -/
def callbackParam : Node :=
  ((emptyNode.setName (some "callback")).setType
    (some "function")).setParameters (some [innerStringParam])

/-- Parameter list of a function whose `async` names its `callback` parameter. -/
def c1params : List Node := [xParam, callbackParam]

/-- The post-`findReturnType` tuple for the `c1params` function, used to
instantiate the C1 theorem at a concrete input. -/
def c1out : String × List Node × List Node × List String :=
  ("Promise<string>", [xParam], [xParam, callbackParam.setParameters (some [])], [])

/-- A function-typed schema node whose `async` is the string `"callback"` and
whose named callback parameter carries one nested parameter. -/
def c10node : Node :=
  ((emptyNode.setType (some "function")).setAsync
    (some (.astr "callback"))).setParameters (some [callbackParam])

/-- First compilation of `c10node`. -/
def c10r1 : Except String (String × Option Node × List String) :=
  getType 10 (some c10node) (some []) (some "mail")

/-- The state of `c10node` after the first compilation. -/
def c10mut : Option Node :=
  match c10r1 with
  | .ok (_, n, _) => n
  | .error _ => none

/-- Second compilation, on the node as the first call left it (in JS both
calls receive the very same object). -/
def c10r2 : Except String (String × Option Node × List String) :=
  getType 10 c10mut (some []) (some "mail")

/-- Text projection of a `getType` result. -/
def exText : Except String (String × Option Node × List String) → Option String
  | .ok (t, _, _) => some t
  | .error _ => none

/-- A type `Foo` with a marker description, as declared by file 1. -/
def foo1 : Node := (emptyNode.setId (some "Foo")).setDescription (some "file1")

/-- A type `Foo` with a marker description, as declared by file 2. -/
def foo2 : Node := (emptyNode.setId (some "Foo")).setDescription (some "file2")

/-- File 1's `mail` part: declares `Foo` and the property key `a`. -/
def c4p1 : SchemaPart :=
  ⟨"mail", none, [], [], [foo1], some [("a", emptyNode.setType (some "string"))]⟩

/-- File 2's `mail` part: declares `Foo` and the property key `b`. -/
def c4p2 : SchemaPart :=
  ⟨"mail", none, [], [], [foo2], some [("b", emptyNode.setType (some "integer"))]⟩

/-- An anonymous (id-less) type as contributed by a second file. -/
def anonNew : Node := emptyNode.setType (some "object")

/-- An anonymous (id-less) type already present in the merged entry. -/
def anonOld : Node := emptyNode.setType (some "string")

/-- An existing `mail` entry holding one anonymous type. -/
def anonPart : SchemaPart := ⟨"mail", none, [], [], [anonOld], none⟩

/-- The type `Foo`, without marker fields. -/
def fooType : Node := emptyNode.setId (some "Foo")

/-- The `compose` namespace, declaring `Foo`. -/
def composePart : SchemaPart := ⟨"compose", none, [], [], [fooType], none⟩

/-- The `mail` namespace, declaring nothing. -/
def mailPart : SchemaPart := ⟨"mail", none, [], [], [], none⟩

/-- A table in which `Foo` lives in `compose` only. -/
def tbl7 : Table := [("compose", composePart), ("mail", mailPart)]

/-- `{type: "array", items: {$ref: "Foo"}}`. -/
def arrRefNode : Node :=
  (emptyNode.setType (some "array")).setItems (some (emptyNode.setRef (some "Foo")))

/-- An array-typed node with no `items` descriptor. -/
def arrNoItemsNode : Node := emptyNode.setType (some "array")

/-- A reference to an undeclared type `Bar`. -/
def barNode : Node := emptyNode.setRef (some "Bar")

/-- A namespace `a` declaring `Dup`. -/
def dupPartA : SchemaPart := ⟨"a", none, [], [], [emptyNode.setId (some "Dup")], none⟩

/-- A namespace `b` also declaring `Dup`. -/
def dupPartB : SchemaPart := ⟨"b", none, [], [], [emptyNode.setId (some "Dup")], none⟩

/-- A table in which `Dup` is declared by both `a` and `b`, in that order. -/
def tbl9 : Table := [("a", dupPartA), ("b", dupPartB)]

/-- A reference to the doubly declared type `Dup`. -/
def dupNode : Node := emptyNode.setRef (some "Dup")
theorem jsFindIndex_eq_none_of_all {p : α → Bool} :
    ∀ {l : List α}, (∀ a ∈ l, p a = false) → jsFindIndex p l = none := by
  intro l h
  induction l with
  | nil => rfl
  | cons a l ih =>
    simp only [jsFindIndex, h a (List.mem_cons_self a l)]
    simp [ih fun x hx => h x (List.mem_cons_of_mem a hx)]

theorem jsFind_eq_none_of_all {p : α → Bool} :
    ∀ {l : List α}, (∀ a ∈ l, p a = false) → jsFind p l = none := by
  intro l h
  induction l with
  | nil => rfl
  | cons a l ih =>
    simp only [jsFind, h a (List.mem_cons_self a l)]
    simp only [Bool.false_eq_true, if_false]
    exact ih fun x hx => h x (List.mem_cons_of_mem a hx)

theorem jsRemoveIdx_subset {l : List α} {i : Nat} {a : α} :
    a ∈ jsRemoveIdx l i → a ∈ l := by
  induction l generalizing i with
  | nil => intro h; simp [jsRemoveIdx] at h
  | cons b l ih =>
    intro h
    cases i with
    | zero => exact List.mem_cons_of_mem b h
    | succ i =>
      simp only [jsRemoveIdx, List.mem_cons] at h
      rcases h with h | h
      · exact h ▸ List.mem_cons_self b l
      · exact List.mem_cons_of_mem b (ih h)

theorem Node.name_setOptional (p : Node) (o : Option Bool) :
    (p.setOptional o).name = p.name := by
  cases p; rfl

theorem requireAllParams_name {l : List Node} {q : Node} (h : q ∈ requireAllParams l) :
    ∃ q0 ∈ l, q.name = q0.name := by
  simp only [requireAllParams, List.mem_map] at h
  obtain ⟨q0, hq0, hq⟩ := h
  refine ⟨q0, hq0, ?_⟩
  by_cases hc : (q0.name == some "callback") = true
  · simp [hc] at hq; exact hq ▸ rfl
  · simp [hc] at hq
    exact hq ▸ Node.name_setOptional q0 (some false)

theorem overloadLoopF_mem {n : Nat} :
    ∀ {ps : List Node},
      (∀ l ∈ (overloadLoopF n ps).1, ∀ q ∈ l, q ∈ ps) ∧
      (∀ q ∈ (overloadLoopF n ps).2, q ∈ ps) := by
  induction n with
  | zero => intro ps; exact ⟨fun l hl => by simp [overloadLoopF] at hl, fun q hq => by
      simpa [overloadLoopF] using hq⟩
  | succ n ih =>
    intro ps
    by_cases h : ∃ i, jsFindIndex nodeOptional ps = some i
    · obtain ⟨i, hi⟩ := h
      constructor
      · intro l hl q hq
        simp only [overloadLoopF, hi, List.mem_cons] at hl
        rcases hl with rfl | hl
        · exact hq
        · exact jsRemoveIdx_subset (ih.1 l hl q hq)
      · intro q hq
        simp only [overloadLoopF, hi] at hq
        exact jsRemoveIdx_subset (ih.2 q hq)
    · have hn : jsFindIndex nodeOptional ps = none := by
        cases he : jsFindIndex nodeOptional ps with
        | none => rfl
        | some i => exact absurd ⟨i, he⟩ h
      exact ⟨fun l hl => by simp [overloadLoopF, hn] at hl,
        fun q hq => by simpa [overloadLoopF, hn] using hq⟩

theorem emittedParamLists_names {ps : List Node} {l : List Node} {q : Node}
    (hl : l ∈ emittedParamLists ps) (hq : q ∈ l) :
    ∃ q0 ∈ ps, q.name = q0.name := by
  unfold emittedParamLists at hl
  by_cases ht : allTrailingAreOptional ps = true
  · rw [if_pos ht] at hl
    exact ⟨q, (List.mem_singleton.mp hl) ▸ hq, rfl⟩
  · rw [if_neg ht] at hl
    rcases List.mem_append.mp hl with h1 | h2
    · obtain ⟨l0, hl0, hleq⟩ := List.mem_map.mp h1
      subst hleq
      obtain ⟨q0, hq0, hname⟩ := requireAllParams_name hq
      exact ⟨q0, overloadLoopF_mem.1 l0 hl0 q0 hq0, hname⟩
    · have heq := List.mem_singleton.mp h2
      subst heq
      obtain ⟨q0, hq0, hname⟩ := requireAllParams_name hq
      exact ⟨q0, overloadLoopF_mem.2 q0 hq0, hname⟩

/-- C1: for every function whose `async` field is a string naming one of its
own parameters `p`, no parameter list emitted by `createFunctionDefinition`
(neither an overload's nor the final signature's) contains a parameter named
`p`: `findReturnType` filters every parameter named after the `async` string
out of the visible list before the overload lists are formed. -/
theorem c1_async_param_elided
    (fuel : Nat) (p : String) (fparams : List Node) (freturns : Option Node)
    (currentNamespace : String) (namespaces : Option Table)
    (out : String × List Node × List Node × List String)
    (_hnamed : some p ∈ fparams.map Node.name)
    (h : findReturnType fuel (.astr p) fparams freturns currentNamespace namespaces =
      .ok out) :
    ∀ l ∈ emittedParamLists out.2.1, ∀ q ∈ l, q.name ≠ some p := by
  cases fuel with
  | zero => exact absurd h (by simp [findReturnType])
  | succ fuel =>
    simp only [findReturnType] at h
    split at h
    · exact absurd h (by simp)
    · rename_i t rest w hg
      have hout : out.2.1 =
          (mutatedAsyncParams p fparams).filter fun param => !(param.name == some p) := by
        have := (Except.ok.injEq _ _).mp h
        rw [← this]
      intro l hl q hq hname
      obtain ⟨q0, hq0, hq0name⟩ := emittedParamLists_names (hout ▸ hl) hq
      have hfilter := (List.mem_filter.mp hq0).2
      rw [← hq0name, hname] at hfilter
      simp at hfilter

/-- C1 witness: at the concrete function `(x: string, callback: function)`
with `async = "callback"`, no emitted parameter list mentions `callback`. -/
theorem c1_async_param_elided_witness :
    some "callback" ∈ (c1params.map Node.name) ∧
      ∀ l ∈ emittedParamLists c1out.2.1, ∀ q ∈ l, q.name ≠ some "callback" :=
  ⟨by decide,
    c1_async_param_elided 5 "callback" c1params none "mail" none c1out
      (by decide) rfl⟩

/-- C2 counterexample: for the concrete function
`f(a?: string, b: string, c?: string)` (an optional parameter before a later
required one) the synthesizer emits THREE signatures — the full list, then the
list with the first optional parameter dropped, then with the next optional
dropped — not the two signatures covering `[a, b]` and `[a, b, c]` that the
claim states. -/
theorem c2_counterexample :
    createFunctionDefinition 10 (some "f") (.abool false) none c2params none "mail"
        defaultCFDOpts none =
      .ok ("  function f(a: string, b: string, c: string): void;\n  function f(b: string, c: string): void;\n  function f(b: string): void;\n",
        c2params, []) ∧
    (emittedParamLists c2params).map (fun l => l.map Node.name) =
      [[some "a", some "b", some "c"], [some "b", some "c"], [some "b"]] ∧
    (emittedParamLists c2params).length ≠ 2 := by
  refine ⟨rfl, by decide, by decide⟩

/-- C2 amended: for a visible parameter list `[opt₁, req₁, opt₂]` the
synthesizer emits exactly three overload signatures, covering
`[opt₁, req₁, opt₂]`, `[req₁, opt₂]` and `[req₁]` — each iteration of the
cascade drops the first remaining optional parameter, and the final signature
uses the fully stripped list, not the full one.  Every emitted list passes
through `requireAllParams`, which forces every parameter required except one
named `callback`. -/
theorem c2_overload_cascade (p1 p2 p3 : Node)
    (h1 : p1.optional = some true) (h2 : p2.optional ≠ some true)
    (h3 : p3.optional = some true) :
    emittedParamLists [p1, p2, p3] =
      [requireAllParams [p1, p2, p3], requireAllParams [p2, p3], requireAllParams [p2]] := by
  have e1 : nodeOptional p1 = true := by simp [nodeOptional, h1]
  have e2 : nodeOptional p2 = false := by
    simp only [nodeOptional]
    exact beq_eq_false_iff_ne.mpr h2
  have e3 : nodeOptional p3 = true := by simp [nodeOptional, h3]
  have hidx : jsFindIndex nodeOptional [p1, p2, p3] = some 0 := by
    simp [jsFindIndex, e1]
  have hall : allTrailingAreOptional [p1, p2, p3] = false := by
    simp [allTrailingAreOptional, firstOptionalParameterIndex, hidx, e2]
  have hidx2 : jsFindIndex nodeOptional [p2, p3] = some 1 := by
    simp [jsFindIndex, e2, e3]
  have hidx3 : jsFindIndex nodeOptional [p2] = none := by
    simp [jsFindIndex, e2]
  have hloop : overloadLoop [p1, p2, p3] = ([[p1, p2, p3], [p2, p3]], [p2]) := by
    have hlen : ([p1, p2, p3] : List Node).length = 2 + 1 := rfl
    rw [overloadLoop, hlen]
    rw [show overloadLoopF (2 + 1) [p1, p2, p3] =
        (match jsFindIndex nodeOptional [p1, p2, p3] with
          | none => ([], [p1, p2, p3])
          | some i =>
            let rest := overloadLoopF 2 (jsRemoveIdx [p1, p2, p3] i)
            ([p1, p2, p3] :: rest.1, rest.2)) from rfl, hidx]
    show ([p1, p2, p3] :: (overloadLoopF 2 [p2, p3]).1, (overloadLoopF 2 [p2, p3]).2) = _
    rw [show overloadLoopF 2 [p2, p3] =
        (match jsFindIndex nodeOptional [p2, p3] with
          | none => ([], [p2, p3])
          | some i =>
            let rest := overloadLoopF 1 (jsRemoveIdx [p2, p3] i)
            ([p2, p3] :: rest.1, rest.2)) from rfl, hidx2]
    show ([p1, p2, p3] :: [p2, p3] :: (overloadLoopF 1 [p2]).1,
      (overloadLoopF 1 [p2]).2) = _
    rw [show overloadLoopF 1 [p2] =
        (match jsFindIndex nodeOptional [p2] with
          | none => ([], [p2])
          | some i =>
            let rest := overloadLoopF 0 (jsRemoveIdx [p2] i)
            ([p2] :: rest.1, rest.2)) from rfl, hidx3]
  simp [emittedParamLists, hall, hloop]

/-- C2 amendment witness: the cascade theorem at the concrete list
`[a?: string, b: string, c?: string]`. -/
theorem c2_overload_cascade_witness :
    emittedParamLists c2params =
      [requireAllParams [strP "a" true, strP "b" false, strP "c" true],
        requireAllParams [strP "b" false, strP "c" true],
        requireAllParams [strP "b" false]] :=
  c2_overload_cascade (strP "a" true) (strP "b" false) (strP "c" true)
    rfl (by decide) rfl

theorem getType_none (fuel : Nat) (namespaces : Option Table) (c : Option String) :
    getType fuel none namespaces c = .ok ("void", none, []) := by
  cases fuel <;> rfl

/-- C3 counterexample: for the function `f(x: string)` with the unrecognized
`async` string `"weird"`, the synthesizer emits no diagnostic (warning list is
empty), produces `Promise<void>` rather than an untyped `Promise<any>`, and
keeps `x` in the visible parameter list rather than emptying it — and still
completes. -/
theorem c3_counterexample :
    findReturnType 5 (.astr "weird") [xParam] none "mail" none =
      .ok ("Promise<void>", [xParam], [xParam], []) ∧
    ("Promise<void>" : String) ≠ "Promise<any>" ∧
    ([xParam] : List Node) ≠ [] ∧
    createFunctionDefinition 6 (some "f") (.astr "weird") none [xParam] none "mail"
        defaultCFDOpts none =
      .ok ("  function f(x: string): Promise<void>;\n", [xParam], []) :=
  ⟨rfl, by decide, by simp, rfl⟩

/-- C3 amended: for every function whose `async` field is a string matching no
parameter of function type, the synthesizer signals NO diagnostic, falls back
to `Promise<void>` (the compilation of the absent callback result), keeps
every parameter not named exactly the `async` string in the visible list, and
completes without error — the source's `"ERR"` diagnostic branch sits after
an unconditional `return` and is unreachable. -/
theorem c3_unknown_async_fallback (fuel : Nat) (a : String) (fparams : List Node)
    (freturns : Option Node) (currentNamespace : String) (namespaces : Option Table)
    (h : ∀ p ∈ fparams, ¬(p.name = some a ∧ p.type = some "function")) :
    findReturnType (fuel + 1) (.astr a) fparams freturns currentNamespace namespaces =
      .ok ("Promise<void>", fparams.filter (fun param => !(param.name == some a)),
        fparams, []) := by
  have hpred : ∀ p ∈ fparams,
      (fun param => param.name == some a && param.type == some "function") p = false := by
    intro p hp
    by_cases h1 : p.name = some a
    · have h2 : p.type ≠ some "function" := fun h2 => h p hp ⟨h1, h2⟩
      simp [beq_eq_false_iff_ne.mpr h2]
    · simp [beq_eq_false_iff_ne.mpr h1]
  have hfind := jsFind_eq_none_of_all hpred
  have hidx := jsFindIndex_eq_none_of_all hpred
  simp only [findReturnType, hfind, hidx, mutatedAsyncParams, getType_none]
  rfl

/-- C3 amendment witness: the fallback theorem at the concrete function
`f(x: string)` with `async = "weird"`. -/
theorem c3_unknown_async_fallback_witness :
    findReturnType 5 (.astr "weird") [xParam] none "mail" none =
      .ok ("Promise<void>",
        [xParam].filter (fun param => !(param.name == some "weird")), [xParam], []) :=
  c3_unknown_async_fallback 4 "weird" [xParam] none "mail" none (by decide)

/-- C4 counterexample: namespace `mail` across two files, each declaring a
type `Foo` (file 1's marked "file1", file 2's marked "file2"): the merged
namespace keeps file 2's record, not file 1's. -/
theorem c4_counterexample :
    (tableGet (mergeSchema [c4p1, c4p2]) "mail").map
        (fun sp => sp.types.map Node.description) = some [some "file2"] ∧
    (some [some "file2"] : Option (List (Option String))) ≠ some [some "file1"] :=
  ⟨rfl, by decide⟩

/-- C4 amended: for duplicate type ids across two `SchemaPart`s of the same
namespace, the merged types sequence keeps only the SECOND file's record: the
new part's types are concatenated before the existing ones and deduplication
keeps the first occurrence in that order, so the last-processed file wins. -/
theorem c4_last_file_wins (p1 p2 : SchemaPart) (t1 t2 : Node) (s : String)
    (hns : p2.nspace = p1.nspace) (h1 : p1.types = [t1]) (h2 : p2.types = [t2])
    (hid1 : t1.id = some s) (hid2 : t2.id = some s) (hs : s ≠ "") :
    (tableGet (mergeSchema [p1, p2]) p1.nspace).map SchemaPart.types = some [t2] := by
  have hsb : (s == "") = false := beq_eq_false_iff_ne.mpr hs
  obtain ⟨ns1, d1, f1, e1, ty1, pr1⟩ := p1
  obtain ⟨ns2, d2, f2, e2, ty2, pr2⟩ := p2
  simp only at hns h1 h2
  subst hns h1 h2
  simp only [mergeSchema, List.foldl, mergeSchemaStep, tableGet, jsFind, tableSet,
    List.any_nil, List.any_cons, List.map_cons, List.map_nil, Option.map,
    beq_self_eq_true, if_true, Bool.or_true, Bool.true_or, List.append_nil,
    List.nil_append, Option.map_some]
  simp only [mergeNamespaceTypes, List.cons_append, List.nil_append,
    filterWithIdx, filterWithIdxAux, typeIdTruthy, jsFindIndex, hid1, hid2, hsb,
    beq_self_eq_true, Bool.not_false, if_true, Option.map]
  simp [jsFind, hid1, hid2, hsb]

/-- C4 amendment witness: the last-file-wins theorem at the two concrete
`mail` parts. -/
theorem c4_last_file_wins_witness :
    (tableGet (mergeSchema [c4p1, c4p2]) c4p1.nspace).map SchemaPart.types =
      some [foo2] :=
  c4_last_file_wins c4p1 c4p2 foo1 foo2 "Foo" rfl rfl rfl rfl rfl (by decide)

/-- C5: anonymous (id-less) types are NOT retained by the type merge — the
source's filter callback hits `return 0`, a falsy value, so `filter` drops
every id-less type, contradicting both the claim and the source's own comment
("always keep parts with no name"). -/
theorem c5_anonymous_types_dropped :
    anonNew.id = none ∧ anonOld.id = none ∧
      mergeNamespaceTypes [anonNew] anonPart = [] :=
  ⟨rfl, rfl, rfl⟩

/-- C6 counterexample: merging the `mail` part with property key `a` (file 1)
and then the `mail` part with property key `b` (file 2) keeps file 2's
properties map, not file 1's. -/
theorem c6_counterexample :
    (tableGet (mergeSchema [c4p1, c4p2]) "mail").map
        (fun sp => sp.properties.map (fun ps => ps.map Prod.fst)) =
      some (some ["b"]) ∧
    (some (some ["b"]) : Option (Option (List String))) ≠ some (some ["a"]) :=
  ⟨rfl, by decide⟩

/-- C6 amended: when two `SchemaPart`s share a namespace, the merged record
keeps the SECOND document's `properties` map and drops the first's —
`mergeNameSpaceProperties` returns the new part's map unchanged. -/
theorem c6_properties_second_wins (p1 p2 : SchemaPart) (hns : p2.nspace = p1.nspace) :
    (tableGet (mergeSchema [p1, p2]) p1.nspace).map SchemaPart.properties =
      some p2.properties := by
  obtain ⟨ns1, d1, f1, e1, ty1, pr1⟩ := p1
  obtain ⟨ns2, d2, f2, e2, ty2, pr2⟩ := p2
  simp only at hns
  subst hns
  simp [mergeSchema, mergeSchemaStep, tableGet, tableSet, jsFind,
    mergeNameSpaceProperties]

/-- C6 amendment witness: the properties theorem at the two concrete `mail`
parts. -/
theorem c6_properties_second_wins_witness :
    (tableGet (mergeSchema [c4p1, c4p2]) c4p1.nspace).map SchemaPart.properties =
      some c4p2.properties :=
  c6_properties_second_wins c4p1 c4p2 rfl

/-- C7 counterexample: the array node `{type: "array", items: {$ref: "Foo"}}`
compiled in namespace `mail`, with `Foo` declared only in namespace `compose`,
yields the bare `Foo[]` — not the qualified `compose.Foo[]` the claim
expects. -/
theorem c7_counterexample :
    getType 5 (some arrRefNode) (some tbl7) (some "mail") =
      .ok ("Foo[]", some arrRefNode, []) ∧
    ("Foo[]" : String) ≠ "compose.Foo[]" ∧
    findNamespaceFortype "Foo" (some tbl7) = ["compose"] :=
  ⟨rfl, by decide, rfl⟩

/-- C7 amended: for an array node whose `items` carry only a `$ref`, the
compiled expression is the reference name with the array suffix, WITHOUT any
namespace qualification — the `items` reference never goes through the
reference resolver (and no warning is logged). -/
theorem c7_array_ref_unqualified (fuel : Nat) (namespaces : Option Table)
    (currentNamespace : Option String) (node itemsNode : Node) (r : String)
    (href : strTruthy node.ref = false) (htype : node.type = some "array")
    (hitems : node.items = some itemsNode) (hit : strTruthy itemsNode.type = false)
    (hir : itemsNode.ref = some r) :
    getType (fuel + 1) (some node) namespaces currentNamespace =
      .ok (r ++ "[]", some node, []) := by
  simp [getType, getTypeBody, href, htype, hitems, hit, hir, jsOr, ite_self]

/-- C7 amendment witness: the theorem at the concrete array node referencing
`Foo` from namespace `mail`. -/
theorem c7_array_ref_unqualified_witness :
    getType 1 (some arrRefNode) (some tbl7) (some "mail") =
      .ok ("Foo[]", some arrRefNode, []) :=
  c7_array_ref_unqualified 0 (some tbl7) (some "mail") arrRefNode
    (emptyNode.setRef (some "Foo")) "Foo" rfl rfl rfl rfl rfl

/-- C8: compiling an array-typed node with no `items` descriptor is NOT a
recoverable per-node failure in the code — `getType` throws
`"Cannot create array typing"`, aborting the run, where the specification
mandates an undeterminable marker plus continuation. -/
theorem c8_missing_items_throws :
    getType 1 (some arrNoItemsNode) none none = .error "Cannot create array typing" :=
  rfl

/-- C9: for an unqualified `$ref` (truthy, no dot): if the reference resolver
finds no namespace, `getType` logs the warning and emits the bare identifier
(as a successful, non-aborting result); if it finds at least one — in
particular more than one — the LAST namespace in table iteration order is the
one used for qualification (compared against the current namespace and
prefixed otherwise). -/
theorem c9_unresolved_and_last_wins (fuel : Nat) (node : Node)
    (namespaces : Option Table) (currentNamespace : Option String) (r : String)
    (h1 : node.ref = some r) (h2 : r ≠ "") (h3 : jsIncludesDot r = false) :
    (findNamespaceFortype r namespaces = [] →
      getType (fuel + 1) (some node) namespaces currentNamespace =
        .ok (r, some node, ["ERROR: namespace \x27" ++ r ++ "\x27 not found."])) ∧
    (∀ t : String, (findNamespaceFortype r namespaces).getLast? = some t →
      getType (fuel + 1) (some node) namespaces currentNamespace =
        .ok ((if cnsTruthy currentNamespace && (some t == currentNamespace) then r
          else t ++ "." ++ r), some node, [])) := by
  have hrb : (r == "") = false := beq_eq_false_iff_ne.mpr h2
  constructor
  · intro hempty
    simp only [getType, getTypeBody, h1, strTruthy, hrb, Bool.not_false, if_true, jsOr, h3,
      Bool.false_eq_true, if_false, hempty, List.isEmpty_nil]
  · intro t ht
    have hemp : (findNamespaceFortype r namespaces).isEmpty = false := by
      cases hl : findNamespaceFortype r namespaces with
      | nil => rw [hl] at ht; simp at ht
      | cons a l => rfl
    simp only [getType, getTypeBody, h1, strTruthy, hrb, Bool.not_false, if_true, jsOr, h3,
      Bool.false_eq_true, if_false, hemp, ht, jsShow]
    split <;> rfl

/-- C9 witness: at the concrete table `tbl7` the undeclared `Bar` produces the
warning and the bare identifier, and at `tbl9` (both `a` and `b` declare
`Dup`) the later namespace `b` wins the qualification. -/
theorem c9_unresolved_and_last_wins_witness :
    getType 1 (some barNode) (some tbl7) (some "mail") =
      .ok ("Bar", some barNode, ["ERROR: namespace \x27Bar\x27 not found."]) ∧
    getType 1 (some dupNode) (some tbl9) (some "mail") =
      .ok ("b.Dup", some dupNode, []) :=
  ⟨(c9_unresolved_and_last_wins 0 barNode (some tbl7) (some "mail") "Bar"
      rfl (by decide) (by decide)).1 rfl,
    (c9_unresolved_and_last_wins 0 dupNode (some tbl9) (some "mail") "Dup"
      rfl (by decide) (by decide)).2 "b" rfl⟩

/-- C10: compilation is NOT idempotent on a function-typed node whose `async`
is a string and whose named callback parameter carries nested parameters: the
`.shift()` in `findReturnType` removes the nested parameter in place, so the
first compilation of `c10node` yields `Promise<string>` and the second
compilation of the same (now mutated) node yields `Promise<void>`. -/
theorem c10_not_idempotent :
    exText c10r1 = some "/* or any?  */   () => Promise<string> , \n /* x7 */ \n" ∧
    exText c10r2 = some "/* or any?  */   () => Promise<void> , \n /* x7 */ \n" ∧
    exText c10r1 ≠ exText c10r2 :=
  ⟨rfl, rfl, by decide⟩
